import Mathlib

/-!
Shallow embedding of the process-spawning operations of
`src/runtime/ops/process.rs` (Deno runtime), together with proofs of the
behavioural claims about permission gating of dangerous environment
variables, exit-status translation, child-handle registry semantics,
auxiliary pipe wiring, synchronous capture, and the legacy run surface.

Strings are embedded as lists of characters (`Str`), so that all string
operations the source uses (`trim`, `starts_with`, `is_empty`, equality)
are kernel-computable.
-/

namespace DenoProcess

/-- Embedding of Rust `String` / `&str`: a list of characters. -/
abbrev Str := List Char

/-- Drop leading whitespace characters (helper for `strTrim`). -/
def trimLeft : Str → Str
  | [] => []
  | c :: rest => if c.isWhitespace then trimLeft rest else c :: rest

/-- Embedding of `str::trim`: drop leading and trailing whitespace. -/
def strTrim (s : Str) : Str :=
  (trimLeft (trimLeft s).reverse).reverse

/-- Embedding of `str::starts_with`. -/
def strStartsWith (s pre : Str) : Bool :=
  pre.isPrefixOf s

/-- The symbolic stdio modes, from `enum Stdio` in the source. -/
inductive Stdio where
  | inherit
  | piped
  | null
  | ipcForInternalUse
deriving DecidableEq, Repr

/-- Either a symbolic stdio mode or a reference to an existing resource,
from `enum StdioOrRid`. -/
inductive StdioOrRid where
  | stdio (s : Stdio)
  | rid (r : Nat)
deriving DecidableEq, Repr

/-- `StdioOrRid::is_ipc` from the source. -/
def StdioOrRid.is_ipc : StdioOrRid → Bool
  | .stdio .ipcForInternalUse => true
  | _ => false

/-- The three standard stream modes of a spawn request, from `struct ChildStdio`. -/
structure ChildStdio where
  stdin : StdioOrRid
  stdout : StdioOrRid
  stderr : StdioOrRid
deriving DecidableEq, Repr

/-- A spawn request, from `struct SpawnArgs`.  (The Windows-only raw-arguments
flag is omitted since the claims below concern the Unix path.) -/
structure SpawnArgs where
  cmd : Str
  args : List Str
  cwd : Option Str
  clear_env : Bool
  env : List (Str × Str)
  gid : Option Nat
  uid : Option Nat
  ipc : Option Int
  stdio : ChildStdio
  extra_stdio : List Stdio
deriving DecidableEq, Repr

/-- `requires_allow_all` from `get_requires_allow_all_env_var`: the key is
trimmed and checked against the dangerous library-preload prefixes. -/
def requires_allow_all (key : Str) : Bool :=
  let key := strTrim key
  strStartsWith key "LD_".data || strStartsWith key "DYLD_".data

/-- `args_has_empty_env_value`: did the caller set this env var to an empty
(possibly whitespace-only) string in order to clear it?  The lookup finds the
first declared entry whose key equals `key_name` verbatim. -/
def args_has_empty_env_value (args : SpawnArgs) (key_name : Str) : Bool :=
  ((args.env.find? (fun kv => kv.1 == key_name)).map
    (fun kv => (strTrim kv.2).isEmpty)).getD false

/-- `get_requires_allow_all_env_var`: first scan the declared overrides for a
dangerous key with a non-empty (after trim) value; then, unless the request
clears the environment, scan the inherited process environment (passed here
explicitly as `inherited`, the embedding of `std::env::vars()`) for a
dangerous non-empty variable that the request does not neutralize with an
empty-valued override of the same key. -/
def get_requires_allow_all_env_var (inherited : List (Str × Str))
    (args : SpawnArgs) : Option Str :=
  match args.env.find? (fun kv =>
      requires_allow_all kv.1 && !(strTrim kv.2).isEmpty) with
  | some kv => some kv.1
  | none =>
    if !args.clear_env then
      match inherited.find? (fun kv =>
          requires_allow_all kv.1 && !(strTrim kv.2).isEmpty &&
          !args_has_empty_env_value args kv.1) with
      | some kv => some kv.1
      | none => none
    else none

/-- The permission-related failures of `create_command`. -/
inductive GateError where
  | runDenied
  | allowAllEnvVar (name : Str)
deriving DecidableEq, Repr

/-- The permission phase of `create_command`: `check_run` first (its outcome
is the oracle `checkRunOk`), then, when unrestricted run permission is absent
(`allowAll = false`), the dangerous-environment-variable scan. -/
def permission_gate (checkRunOk : Bool) (allowAll : Bool)
    (inherited : List (Str × Str)) (args : SpawnArgs) :
    Except GateError Unit :=
  if !checkRunOk then .error .runDenied
  else if !allowAll then
    match get_requires_allow_all_env_var inherited args with
    | some name => .error (.allowAllEnvVar name)
    | none => .ok ()
  else .ok ()

/-- Concrete request used by the permission-gate witnesses: it declares the
dangerous override `LD_PRELOAD=./lib.so`. -/
def envDangerArgs : SpawnArgs :=
  { cmd := "curl".data, args := [], cwd := none, clear_env := true,
    env := [("LD_PRELOAD".data, "./lib.so".data)], gid := none, uid := none,
    ipc := none,
    stdio := ⟨.stdio .inherit, .stdio .inherit, .stdio .inherit⟩,
    extra_stdio := [] }

/-- Concrete request used by the permission-gate witnesses: it overrides the
dangerous key `LD_PRELOAD` with a whitespace-only value. -/
def envEmptyOverrideArgs : SpawnArgs :=
  { cmd := "curl".data, args := [], cwd := none, clear_env := false,
    env := [("LD_PRELOAD".data, " ".data)], gid := none, uid := none,
    ipc := none,
    stdio := ⟨.stdio .inherit, .stdio .inherit, .stdio .inherit⟩,
    extra_stdio := [] }

/-- C2: without unrestricted-run permission, a declared environment override
whose key satisfies the dangerous predicate and whose value is non-empty is
denied with `PermissionDenied` naming an offending declared dangerous key,
regardless of the clear-environment flag (the first scan never consults it);
and when every declared dangerous override has an empty value (and no
inherited dangerous variable triggers on its own), the spawn is not denied. -/
theorem declared_dangerous_env_denied :
    (∀ (inherited : List (Str × Str)) (args : SpawnArgs) (k v : Str),
      (k, v) ∈ args.env →
      requires_allow_all k = true → (strTrim v).isEmpty = false →
      ∃ name,
        permission_gate true false inherited args = .error (.allowAllEnvVar name) ∧
        requires_allow_all name = true ∧
        ∃ w, (name, w) ∈ args.env ∧ (strTrim w).isEmpty = false) ∧
    (∀ (inherited : List (Str × Str)) (args : SpawnArgs),
      (∀ kv ∈ args.env, requires_allow_all kv.1 = true → (strTrim kv.2).isEmpty = true) →
      (∀ kv ∈ inherited, requires_allow_all kv.1 = true → (strTrim kv.2).isEmpty = true) →
      permission_gate true false inherited args = .ok ()) := by
  constructor
  · intro inherited args k v hmem hd hv
    have hsome : (args.env.find? (fun kv =>
        requires_allow_all kv.1 && !(strTrim kv.2).isEmpty)).isSome := by
      rw [List.find?_isSome]
      exact ⟨(k, v), hmem, by simp [hd, hv]⟩
    obtain ⟨kv0, hfind⟩ := Option.isSome_iff_exists.mp hsome
    have hp := List.find?_some hfind
    have hm := List.mem_of_find?_eq_some hfind
    simp only [Bool.and_eq_true, Bool.not_eq_true'] at hp
    refine ⟨kv0.1, ?_, hp.1, kv0.2, hm, hp.2⟩
    simp [permission_gate, get_requires_allow_all_env_var, hfind]
  · intro inherited args hdecl hinh
    have h1 : args.env.find? (fun kv =>
        requires_allow_all kv.1 && !(strTrim kv.2).isEmpty) = none := by
      rw [List.find?_eq_none]
      intro kv hkv
      simp only [Bool.and_eq_true, Bool.not_eq_true', not_and]
      intro hd hv
      rw [hdecl kv hkv hd] at hv
      exact absurd hv (by decide)
    have h2 : inherited.find? (fun kv =>
        requires_allow_all kv.1 && !(strTrim kv.2).isEmpty &&
        !args_has_empty_env_value args kv.1) = none := by
      rw [List.find?_eq_none]
      intro kv hkv
      simp only [Bool.and_eq_true, Bool.not_eq_true', not_and]
      rintro ⟨hd, hv⟩
      rw [hinh kv hkv hd] at hv
      exact absurd hv (by decide)
    have hg : get_requires_allow_all_env_var inherited args = none := by
      simp [get_requires_allow_all_env_var, h1, h2]
    simp [permission_gate, hg]

/-- Witness for C2 at a concrete request: `LD_PRELOAD=./lib.so` is denied even
with `clearEnv = true`, while a whitespace-only override passes (with an
empty inherited environment). -/
theorem declared_dangerous_env_denied_witness :
    (∃ name,
      permission_gate true false [] envDangerArgs = .error (.allowAllEnvVar name) ∧
      requires_allow_all name = true ∧
      ∃ w, (name, w) ∈ envDangerArgs.env ∧ (strTrim w).isEmpty = false) ∧
    permission_gate true false [] envEmptyOverrideArgs = .ok () :=
  ⟨declared_dangerous_env_denied.1 [] envDangerArgs "LD_PRELOAD".data "./lib.so".data
      (by decide) (by decide) (by decide),
    declared_dangerous_env_denied.2 [] envEmptyOverrideArgs (by decide) (by decide)⟩

/-- Concrete request with no overrides and no environment clearing. -/
def envPlainArgs : SpawnArgs :=
  { cmd := "curl".data, args := [], cwd := none, clear_env := false,
    env := [], gid := none, uid := none, ipc := none,
    stdio := ⟨.stdio .inherit, .stdio .inherit, .stdio .inherit⟩,
    extra_stdio := [] }

/-- Concrete request with no overrides that clears the environment. -/
def envClearArgs : SpawnArgs :=
  { cmd := "curl".data, args := [], cwd := none, clear_env := true,
    env := [], gid := none, uid := none, ipc := none,
    stdio := ⟨.stdio .inherit, .stdio .inherit, .stdio .inherit⟩,
    extra_stdio := [] }

/-- C3: without unrestricted-run permission, a dangerous variable with a
non-empty value in the inherited environment is denied when the request does
not clear the environment and does not override that exact key with an
empty value; clearing the environment, or neutralizing every triggering
inherited key with an empty-valued override, avoids the denial (provided the
declared overrides themselves contain no dangerous non-empty entry). -/
theorem inherited_dangerous_env_denied :
    (∀ (inherited : List (Str × Str)) (args : SpawnArgs) (k v : Str),
      (k, v) ∈ inherited →
      requires_allow_all k = true → (strTrim v).isEmpty = false →
      args.clear_env = false → args_has_empty_env_value args k = false →
      ∃ name,
        permission_gate true false inherited args = .error (.allowAllEnvVar name)) ∧
    (∀ (inherited : List (Str × Str)) (args : SpawnArgs),
      args.clear_env = true →
      (∀ kv ∈ args.env, requires_allow_all kv.1 = true → (strTrim kv.2).isEmpty = true) →
      permission_gate true false inherited args = .ok ()) ∧
    (∀ (inherited : List (Str × Str)) (args : SpawnArgs),
      (∀ kv ∈ args.env, requires_allow_all kv.1 = true → (strTrim kv.2).isEmpty = true) →
      (∀ kv ∈ inherited, requires_allow_all kv.1 = true → (strTrim kv.2).isEmpty = false →
        args_has_empty_env_value args kv.1 = true) →
      permission_gate true false inherited args = .ok ()) := by
  refine ⟨?_, ?_, ?_⟩
  · intro inherited args k v hmem hd hv hclear hemp
    cases hfp : args.env.find? (fun kv =>
        requires_allow_all kv.1 && !(strTrim kv.2).isEmpty) with
    | some kv0 =>
      exact ⟨kv0.1, by simp [permission_gate, get_requires_allow_all_env_var, hfp]⟩
    | none =>
      have hsome : (inherited.find? (fun kv =>
          requires_allow_all kv.1 && !(strTrim kv.2).isEmpty &&
          !args_has_empty_env_value args kv.1)).isSome := by
        rw [List.find?_isSome]
        exact ⟨(k, v), hmem, by simp [hd, hv, hemp]⟩
      obtain ⟨kv1, hfind1⟩ := Option.isSome_iff_exists.mp hsome
      exact ⟨kv1.1, by
        simp [permission_gate, get_requires_allow_all_env_var, hfp, hclear, hfind1]⟩
  · intro inherited args hclear hdecl
    have h1 : args.env.find? (fun kv =>
        requires_allow_all kv.1 && !(strTrim kv.2).isEmpty) = none := by
      rw [List.find?_eq_none]
      intro kv hkv
      simp only [Bool.and_eq_true, Bool.not_eq_true', not_and]
      intro hd hv
      rw [hdecl kv hkv hd] at hv
      exact absurd hv (by decide)
    simp [permission_gate, get_requires_allow_all_env_var, h1, hclear]
  · intro inherited args hdecl hneut
    have h1 : args.env.find? (fun kv =>
        requires_allow_all kv.1 && !(strTrim kv.2).isEmpty) = none := by
      rw [List.find?_eq_none]
      intro kv hkv
      simp only [Bool.and_eq_true, Bool.not_eq_true', not_and]
      intro hd hv
      rw [hdecl kv hkv hd] at hv
      exact absurd hv (by decide)
    have h2 : inherited.find? (fun kv =>
        requires_allow_all kv.1 && !(strTrim kv.2).isEmpty &&
        !args_has_empty_env_value args kv.1) = none := by
      rw [List.find?_eq_none]
      intro kv hkv
      simp only [Bool.and_eq_true, Bool.not_eq_true']
      rintro ⟨⟨hd, hv⟩, hn⟩
      rw [hneut kv hkv hd hv] at hn
      exact absurd hn (by decide)
    have hg : get_requires_allow_all_env_var inherited args = none := by
      simp [get_requires_allow_all_env_var, h1, h2]
    simp [permission_gate, hg]

/-- Witness for C3 at a concrete inherited environment containing
`LD_PRELOAD=./lib.so`: denied with no clear and no override; allowed with
`clearEnv = true`; allowed when overridden with a whitespace-only value. -/
theorem inherited_dangerous_env_denied_witness :
    (∃ name,
      permission_gate true false [("LD_PRELOAD".data, "./lib.so".data)]
        envPlainArgs = .error (.allowAllEnvVar name)) ∧
    permission_gate true false [("LD_PRELOAD".data, "./lib.so".data)]
      envClearArgs = .ok () ∧
    permission_gate true false [("LD_PRELOAD".data, "./lib.so".data)]
      envEmptyOverrideArgs = .ok () :=
  ⟨inherited_dangerous_env_denied.1 _ envPlainArgs "LD_PRELOAD".data "./lib.so".data
      (by decide) (by decide) (by decide) (by decide) (by decide),
    inherited_dangerous_env_denied.2.1 _ envClearArgs (by decide) (by decide),
    inherited_dangerous_env_denied.2.2 _ envEmptyOverrideArgs (by decide) (by decide)⟩

/-- C9: trimming in the dangerous-environment check.  (a) A key whose trimmed
form carries a dangerous prefix satisfies the predicate, so surrounding
whitespace on the key does not defeat it.  (b) A declared override whose
value is whitespace-only is treated as empty: with that single override the
spawn is not denied, and the override neutralizes an inherited variable of
the same key, whatever dangerous value the inherited variable has. -/
theorem env_check_trims_whitespace :
    (∀ k : Str, strStartsWith (strTrim k) "LD_".data = true →
      requires_allow_all k = true) ∧
    (∀ (k w v : Str), (strTrim w).isEmpty = true →
      ∀ args : SpawnArgs, args.env = [(k, w)] → args.clear_env = false →
      permission_gate true false [(k, v)] args = .ok ()) := by
  constructor
  · intro k hpre
    simp [requires_allow_all, hpre]
  · intro k w v hw args henv hclear
    have hemp : args_has_empty_env_value args k = true := by
      simp [args_has_empty_env_value, henv, hw]
    have h1 : args.env.find? (fun kv =>
        requires_allow_all kv.1 && !(strTrim kv.2).isEmpty) = none := by
      rw [henv, List.find?_eq_none]
      intro kv hkv
      simp only [List.mem_singleton] at hkv
      subst hkv
      simp [hw]
    have h2 : ([(k, v)] : List (Str × Str)).find? (fun kv =>
        requires_allow_all kv.1 && !(strTrim kv.2).isEmpty &&
        !args_has_empty_env_value args kv.1) = none := by
      rw [List.find?_eq_none]
      intro kv hkv
      simp only [List.mem_singleton] at hkv
      subst hkv
      simp [hemp]
    have hg : get_requires_allow_all_env_var [(k, v)] args = none := by
      simp [get_requires_allow_all_env_var, h1, h2]
    simp [permission_gate, hg]

/-- Witness for C9: the key `"  LD_PRELOAD "` (with surrounding whitespace)
matches the dangerous predicate, and the whitespace-only override of
`LD_PRELOAD` passes the gate against an inherited `LD_PRELOAD=./lib.so`. -/
theorem env_check_trims_whitespace_witness :
    requires_allow_all "  LD_PRELOAD ".data = true ∧
    permission_gate true false [("LD_PRELOAD".data, "./lib.so".data)]
      envEmptyOverrideArgs = .ok () :=
  ⟨env_check_trims_whitespace.1 "  LD_PRELOAD ".data (by decide),
    env_check_trims_whitespace.2 "LD_PRELOAD".data " ".data "./lib.so".data
      (by decide) envEmptyOverrideArgs (by decide) (by decide)⟩

/-- Errors of the lifecycle operations. -/
inductive OpError where
  | badResource
  | busy
  | alreadyTerminated
  | invalidSignal
  | osError
deriving DecidableEq, Repr

/-- Modelled from the spec: the signal-number-to-name table behind
`signal_int_to_str` lives in `crate::ops::signal`, which is not under `src/`;
§4.7 describes it as "a fixed signal-number-to-name table".  Standard Linux
signal numbers with their canonical names. -/
def signal_table : List (Int × Str) :=
  [(1, "SIGHUP".data), (2, "SIGINT".data), (3, "SIGQUIT".data),
   (4, "SIGILL".data), (5, "SIGTRAP".data), (6, "SIGABRT".data),
   (7, "SIGBUS".data), (8, "SIGFPE".data), (9, "SIGKILL".data),
   (10, "SIGUSR1".data), (11, "SIGSEGV".data), (12, "SIGUSR2".data),
   (13, "SIGPIPE".data), (14, "SIGALRM".data), (15, "SIGTERM".data),
   (16, "SIGSTKFLT".data), (17, "SIGCHLD".data), (18, "SIGCONT".data),
   (19, "SIGSTOP".data), (20, "SIGTSTP".data), (21, "SIGTTIN".data),
   (22, "SIGTTOU".data), (23, "SIGURG".data), (24, "SIGXCPU".data),
   (25, "SIGXFSZ".data), (26, "SIGVTALRM".data), (27, "SIGPROF".data),
   (28, "SIGWINCH".data), (29, "SIGIO".data), (30, "SIGPWR".data),
   (31, "SIGSYS".data)]

/-- Modelled from the spec: `signal_int_to_str` from `crate::ops::signal`
(not under `src/`), rendering a signal number to its canonical name through
the fixed table, failing on unknown numbers. -/
def signal_int_to_str (signal : Int) : Except OpError Str :=
  match signal_table.find? (fun p => p.1 == signal) with
  | some p => .ok p.2
  | none => .error .invalidSignal

/-- A raw OS exit status as the source observes it: `status.code()` and
`status.signal()` (the latter always `None` on non-Unix). -/
structure ExitStatusRepr where
  code : Option Int
  signal : Option Int
deriving DecidableEq, Repr

/-- The portable status record, from `struct ChildStatus`. -/
structure ChildStatus where
  success : Bool
  code : Int
  signal : Option Str
deriving DecidableEq, Repr

/-- `TryFrom<ExitStatus> for ChildStatus`.  The outer `Option` models the
`expect` panic when the raw status carries neither a code nor a signal; the
inner `Except` carries the fallible signal-name lookup. -/
def child_status_try_from (status : ExitStatusRepr) :
    Option (Except OpError ChildStatus) :=
  match status.signal with
  | some signal =>
    match signal_int_to_str signal with
    | .ok name => some (.ok ⟨false, 128 + signal, some name⟩)
    | .error e => some (.error e)
  | none =>
    match status.code with
    | some code => some (.ok ⟨code == 0, code, none⟩)
    | none => none

/-- C4: the exit translation matches the reference definition.  A raw status
with a termination signal translates to `success = false`,
`code = 128 + signal`, and the canonical signal name; a raw status with an
exit code and no signal translates to `success = (code == 0)`, that code,
and no signal. -/
theorem exit_status_translation :
    (∀ (st : ExitStatusRepr) (s : Int) (name : Str),
      st.signal = some s → signal_int_to_str s = .ok name →
      child_status_try_from st = some (.ok ⟨false, 128 + s, some name⟩)) ∧
    (∀ (st : ExitStatusRepr) (c : Int),
      st.signal = none → st.code = some c →
      child_status_try_from st = some (.ok ⟨c == 0, c, none⟩)) := by
  constructor
  · intro st s name hsig hname
    simp [child_status_try_from, hsig, hname]
  · intro st c hsig hcode
    simp [child_status_try_from, hsig, hcode]

/-- Witness for C4: signal 9 yields `{success := false, code := 137,
signal := SIGKILL}`, and a plain exit code 3 yields `{success := false,
code := 3, signal := none}`. -/
theorem exit_status_translation_witness :
    child_status_try_from ⟨none, some 9⟩ =
      some (.ok ⟨false, 137, some "SIGKILL".data⟩) ∧
    child_status_try_from ⟨some 3, none⟩ =
      some (.ok ⟨false, 3, none⟩) := by
  constructor
  · have h := exit_status_translation.1 ⟨none, some 9⟩ 9 "SIGKILL".data rfl (by rfl)
    simpa using h
  · have h := exit_status_translation.2 ⟨some 3, none⟩ 3 rfl rfl
    simpa using h

/-- `struct ChildResource(RefCell<tokio::process::Child>, u32)`: the
`borrowed` flag embeds the `RefCell` borrow state of the process handle, and
`pid` the separately stored process id (the second tuple field). -/
structure ChildResource where
  borrowed : Bool
  pid : Nat
deriving DecidableEq, Repr

/-- The resource table, restricted to child resources: an association list
from resource id to `ChildResource`. -/
structure RegState where
  table : List (Nat × ChildResource)
deriving DecidableEq, Repr

/-- `state.resource_table.get::<ChildResource>(rid)`. -/
def tableGet (s : RegState) (rid : Nat) : Option ChildResource :=
  (s.table.find? (fun p => p.1 == rid)).map Prod.snd

/-- First phase of `op_spawn_wait`: `resource_table.get` then
`try_borrow_mut`.  A missing entry is a bad-resource error; an entry whose
process handle is already mutably borrowed is a busy error; otherwise the
borrow is taken. -/
def op_spawn_wait_start (s : RegState) (rid : Nat) : Except OpError RegState :=
  match tableGet s rid with
  | none => .error .badResource
  | some res =>
    if res.borrowed then .error .busy
    else .ok ⟨s.table.map (fun p =>
      if p.1 == rid then (p.1, (⟨true, p.2.pid⟩ : ChildResource)) else p)⟩

/-- Second phase of `op_spawn_wait`, once `child.wait()` has resolved with
`waitResult`: on an OS error the `?` releases the borrow and propagates the
error with the entry kept; on success `take_any` removes the entry and
closes it, and the raw status is translated (the outer `Option` of the
result models the translation panic). -/
def op_spawn_wait_finish (s : RegState) (rid : Nat)
    (waitResult : Except OpError ExitStatusRepr) :
    RegState × Option (Except OpError ChildStatus) :=
  match waitResult with
  | .error e =>
    (⟨s.table.map (fun p =>
        if p.1 == rid then (p.1, (⟨false, p.2.pid⟩ : ChildResource)) else p)⟩,
      some (.error e))
  | .ok st =>
    (⟨s.table.filter (fun p => !(p.1 == rid))⟩, child_status_try_from st)

/-- `op_spawn_wait` in full: the two phases composed around the single
suspension point. -/
def op_spawn_wait (s : RegState) (rid : Nat)
    (waitResult : Except OpError ExitStatusRepr) :
    RegState × Option (Except OpError ChildStatus) :=
  match op_spawn_wait_start s rid with
  | .error e => (s, some (.error e))
  | .ok s₁ => op_spawn_wait_finish s₁ rid waitResult

/-- `op_spawn_kill`: look the child up; when present, kill through the
cached pid (the OS outcome is the oracle `killResult`); when absent, report
that the child has already terminated. -/
def op_spawn_kill (s : RegState) (rid : Nat)
    (killResult : Except OpError Unit) : Except OpError Unit :=
  match tableGet s rid with
  | some _ => killResult
  | none => .error .alreadyTerminated

/-- Removing an id from the table makes lookups of that id fail. -/
theorem tableGet_erase (t : List (Nat × ChildResource)) (rid : Nat) :
    tableGet ⟨t.filter (fun p => !(p.1 == rid))⟩ rid = none := by
  rw [tableGet, Option.map_eq_none', List.find?_eq_none]
  intro p hp
  have h := (List.mem_filter.mp hp).2
  simp only [Bool.not_eq_true'] at h
  simp [h]

/-- A successful lookup comes from a `find?` hit. -/
theorem tableGet_eq_some (s : RegState) (rid : Nat) (res : ChildResource)
    (h : tableGet s rid = some res) :
    ∃ q, s.table.find? (fun p => p.1 == rid) = some q ∧ q.2 = res := by
  unfold tableGet at h
  cases hf : s.table.find? (fun p => p.1 == rid) with
  | none => rw [hf] at h; simp at h
  | some q => rw [hf] at h; simp at h; exact ⟨q, rfl, h⟩

/-- Marking the borrow of an id preserves its presence in the table, with
the borrow flag set. -/
theorem find?_mark_borrowed (t : List (Nat × ChildResource)) (rid : Nat)
    (q : Nat × ChildResource)
    (h : t.find? (fun p => p.1 == rid) = some q) :
    (t.map (fun p =>
        if p.1 == rid then (p.1, (⟨true, p.2.pid⟩ : ChildResource)) else p)).find?
      (fun p => p.1 == rid) = some (q.1, ⟨true, q.2.pid⟩) := by
  induction t with
  | nil => simp at h
  | cons a t ih =>
    simp only [List.map_cons]
    cases hp : (a.1 == rid) with
    | true =>
      have hpa : (fun p : Nat × ChildResource => p.1 == rid) a = true := hp
      rw [List.find?_cons_of_pos t hpa] at h
      injection h with h
      subst h
      simp only [if_true]
      have hpa2 : (fun p : Nat × ChildResource => p.1 == rid)
          (a.1, (⟨true, a.2.pid⟩ : ChildResource)) = true := hp
      exact List.find?_cons_of_pos _ hpa2
    | false =>
      have hna : ¬((fun p : Nat × ChildResource => p.1 == rid) a = true) := by
        simp [hp]
      rw [List.find?_cons_of_neg t hna] at h
      simp only [Bool.false_eq_true, if_false]
      have hstep : List.find? (fun p : Nat × ChildResource => p.1 == rid)
          (a :: List.map (fun p =>
            if p.1 == rid then (p.1, (⟨true, p.2.pid⟩ : ChildResource)) else p) t) =
          List.find? (fun p => p.1 == rid)
          (List.map (fun p =>
            if p.1 == rid then (p.1, (⟨true, p.2.pid⟩ : ChildResource)) else p) t) :=
        List.find?_cons_of_neg _ hna
      rw [hstep]
      exact ih h

/-- C5: once a wait on a handle id has completed successfully (which removes
the registry entry), a second wait on that id fails with a bad-resource
(not-found) error — both its first phase and the whole operation — and a
kill on that id fails with the already-terminated error; neither resurrects
the entry. -/
theorem wait_removes_handle (s : RegState) (rid : Nat)
    (wr wr2 : Except OpError ExitStatusRepr)
    (kr : Except OpError Unit) (s' : RegState) (res : ChildStatus)
    (h : op_spawn_wait s rid wr = (s', some (.ok res))) :
    op_spawn_wait_start s' rid = .error .badResource ∧
    op_spawn_wait s' rid wr2 = (s', some (.error .badResource)) ∧
    op_spawn_kill s' rid kr = .error .alreadyTerminated := by
  have hremoved : tableGet s' rid = none := by
    unfold op_spawn_wait at h
    cases hstart : op_spawn_wait_start s rid with
    | error e => rw [hstart] at h; simp at h
    | ok s₁ =>
      rw [hstart] at h
      unfold op_spawn_wait_finish at h
      cases wr with
      | error e => simp at h
      | ok st =>
        simp only [Prod.mk.injEq] at h
        rw [← h.1]
        exact tableGet_erase s₁.table rid
  refine ⟨?_, ?_, ?_⟩
  · simp [op_spawn_wait_start, hremoved]
  · simp [op_spawn_wait, op_spawn_wait_start, hremoved]
  · simp [op_spawn_kill, hremoved]

/-- Witness for C5: a one-entry registry, handle id 7; after the successful
wait the table is empty and both follow-up operations fail as stated. -/
theorem wait_removes_handle_witness :
    op_spawn_wait_start ⟨[]⟩ 7 = .error .badResource ∧
    op_spawn_wait ⟨[]⟩ 7 (.ok ⟨some 1, none⟩) =
      (⟨[]⟩, some (.error .badResource)) ∧
    op_spawn_kill ⟨[]⟩ 7 (.ok ()) = .error .alreadyTerminated :=
  wait_removes_handle ⟨[(7, ⟨false, 123⟩)]⟩ 7 (.ok ⟨some 0, none⟩)
    (.ok ⟨some 1, none⟩) (.ok ()) ⟨[]⟩ ⟨true, 0, none⟩ rfl

/-- C8: while a wait holds the exclusive borrow of the process handle, a
second wait on the same id fails immediately with the busy error. -/
theorem second_wait_busy (s : RegState) (rid : Nat) (s₁ : RegState)
    (h : op_spawn_wait_start s rid = .ok s₁) :
    op_spawn_wait_start s₁ rid = .error .busy := by
  cases htg : tableGet s rid with
  | none => simp [op_spawn_wait_start, htg] at h
  | some res =>
    by_cases hb : res.borrowed = true
    · simp [op_spawn_wait_start, htg, hb] at h
    · simp only [op_spawn_wait_start, htg, Bool.not_eq_true] at h hb
      rw [hb] at h
      simp only [Bool.false_eq_true, if_false, Except.ok.injEq] at h
      obtain ⟨q, hq, hq2⟩ := tableGet_eq_some s rid res htg
      have hmark := find?_mark_borrowed s.table rid q hq
      have htg1 : tableGet s₁ rid = some ⟨true, q.2.pid⟩ := by
        rw [← h]
        unfold tableGet
        rw [hmark]
        rfl
      simp [op_spawn_wait_start, htg1]

/-- Witness for C8: a registry whose single entry for id 3 is mid-wait
(borrow taken); the second wait start reports busy. -/
theorem second_wait_busy_witness :
    op_spawn_wait_start ⟨[(3, ⟨true, 10⟩)]⟩ 3 = .error .busy :=
  second_wait_busy ⟨[(3, ⟨false, 10⟩)]⟩ 3 ⟨[(3, ⟨true, 10⟩)]⟩ rfl

/-- The captured output of `std::process::Command::output`. -/
structure RawOutput where
  status : ExitStatusRepr
  stdout : List Nat
  stderr : List Nat
deriving DecidableEq, Repr

/-- `struct SpawnOutput`. -/
structure SpawnOutput where
  status : ChildStatus
  stdout : Option (List Nat)
  stderr : Option (List Nat)
deriving DecidableEq, Repr

/-- `op_spawn_sync`: record whether stdout/stderr were requested as the
symbolic `Piped` mode before `create_command` consumes the request; then,
given the outcome of `create_command` (`createResult`, the oracle for its
stateful part) and of `command.output()` (`outputResult`), assemble the
result, attaching a captured buffer only for the streams recorded as piped.
The outer `Option` models the translation panic. -/
def op_spawn_sync (args : SpawnArgs) (createResult : Except OpError Unit)
    (outputResult : Except OpError RawOutput) :
    Option (Except OpError SpawnOutput) :=
  let stdout := args.stdio.stdout == .stdio .piped
  let stderr := args.stdio.stderr == .stdio .piped
  match createResult with
  | .error e => some (.error e)
  | .ok _ =>
    match outputResult with
    | .error e => some (.error e)
    | .ok output =>
      match child_status_try_from output.status with
      | none => none
      | some (.error e) => some (.error e)
      | some (.ok st) =>
        some (.ok
          { status := st,
            stdout := if stdout then some output.stdout else none,
            stderr := if stderr then some output.stderr else none })

/-- C7: a successful synchronous spawn-and-capture returns a stdout buffer
iff the request's stdout mode was the symbolic `Piped` mode, and a stderr
buffer iff its stderr mode was `Piped`, the two independently. -/
theorem sync_capture_piped (args : SpawnArgs) (cr : Except OpError Unit)
    (orr : Except OpError RawOutput) (out : SpawnOutput)
    (h : op_spawn_sync args cr orr = some (.ok out)) :
    (out.stdout.isSome ↔ args.stdio.stdout = .stdio .piped) ∧
    (out.stderr.isSome ↔ args.stdio.stderr = .stdio .piped) := by
  unfold op_spawn_sync at h
  cases cr with
  | error e => simp at h
  | ok u =>
    cases orr with
    | error e => simp at h
    | ok output =>
      cases hts : child_status_try_from output.status with
      | none => simp [hts] at h
      | some r =>
        simp only [hts] at h
        cases r with
        | error e => simp at h
        | ok st =>
          simp only [Option.some.injEq, Except.ok.injEq] at h
          subst h
          constructor
          · by_cases hp : args.stdio.stdout = .stdio .piped
            · simp [hp]
            · simp [hp]
          · by_cases hp : args.stdio.stderr = .stdio .piped
            · simp [hp]
            · simp [hp]

/-- Concrete request for the C7 witness: stdout piped, stderr inherited. -/
def syncArgs : SpawnArgs :=
  { cmd := "echo".data, args := ["hi".data], cwd := none, clear_env := false,
    env := [], gid := none, uid := none, ipc := none,
    stdio := ⟨.stdio .null, .stdio .piped, .stdio .inherit⟩,
    extra_stdio := [] }

/-- Witness for C7: with stdout piped and stderr inherited, the successful
sync result has a stdout buffer and no stderr buffer. -/
theorem sync_capture_piped_witness :
    ((some [104, 105] : Option (List Nat)).isSome ↔
      syncArgs.stdio.stdout = .stdio .piped) ∧
    ((none : Option (List Nat)).isSome ↔
      syncArgs.stdio.stderr = .stdio .piped) :=
  sync_capture_piped syncArgs (.ok ()) (.ok ⟨⟨some 0, none⟩, [104, 105], []⟩)
    ⟨⟨true, 0, none⟩, some [104, 105], none⟩ rfl

/-- `struct RunArgs` of the legacy surface. -/
structure RunArgs where
  cmd : List Str
  cwd : Option Str
  env : List (Str × Str)
  stdin : StdioOrRid
  stdout : StdioOrRid
  stderr : StdioOrRid
deriving DecidableEq, Repr

/-- Outcome of the entry steps of the legacy `op_run`. -/
inductive RunOutcome where
  | indexPanic
  | permissionDenied
  | proceeds (program : Str) (argv : List Str)
deriving DecidableEq, Repr

/-- The entry of `op_run`: `check_run(&args[0], "Deno.run()")` — the
indexing `args[0]` panics out of bounds on an empty command vector — then
`Command::new(args.first().unwrap())` with `args[1..]` pushed as arguments. -/
def op_run (permCheck : Str → Bool) (run_args : RunArgs) : RunOutcome :=
  let args := run_args.cmd
  match args.get? 0 with
  | none => .indexPanic
  | some program =>
    if permCheck program then .proceeds program (args.drop 1)
    else .permissionDenied

/-- C10: a legacy run request whose command vector is empty panics with an
out-of-bounds index during the permission check, for every permission
policy, instead of returning an error. -/
theorem run_empty_cmd_panics (permCheck : Str → Bool) (cwd : Option Str)
    (env : List (Str × Str)) (si so se : StdioOrRid) :
    op_run permCheck ⟨[], cwd, env, si, so, se⟩ = .indexPanic := rfl

/-- State threaded through the Unix channel/pipe setup of `create_command`
and through `op_spawn_child`.  `osOpen` is the ghost list of raw fds
currently open at the OS level; `fds_to_dup` and `fds_to_close` are the
vectors the source accumulates; `tableRids` the resources added to the
resource table; `pipePairs` the oracle of successive
`deno_io::bi_pipe_pair_raw` outcomes, `biPipeOk` of
`deno_io::BiPipeResource::from_raw_handle` outcomes, and `ipcResOk` of
`deno_node::IpcJsonStreamResource::new`. -/
structure WireState where
  nextRid : Nat
  osOpen : List Int
  fds_to_dup : List (Int × Int)
  fds_to_close : List Int
  tableRids : List Nat
  pipePairs : List (Option (Int × Int))
  biPipeOk : List Bool
  ipcResOk : Bool
deriving DecidableEq, Repr

/-- `deno_io::bi_pipe_pair_raw`: consume the next oracle outcome; a
successful call opens both returned fds; on failure the `?` propagates with
the state as it was (nothing gets closed). -/
def allocPipe (s : WireState) : Except WireState ((Int × Int) × WireState) :=
  match s.pipePairs with
  | [] => .error s
  | none :: rest => .error { s with pipePairs := rest }
  | some pair :: rest =>
    .ok (pair, { s with pipePairs := rest,
                        osOpen := pair.1 :: pair.2 :: s.osOpen })

/-- Consume the next `from_raw_handle` oracle outcome (success by default). -/
def takeBiPipeOk (l : List Bool) : Bool × List Bool :=
  match l with
  | [] => (true, [])
  | b :: rest => (b, rest)

/-- The control-channel wiring of `create_command` on Unix: when an ipc slot
`ipc >= 0` is requested, allocate a pipe pair, record the child end for
duplication onto fd `ipc` and for closing after spawn, then register the
parent end as an `IpcJsonStreamResource` (its descriptor number is
advertised to the child through `NODE_CHANNEL_FD`). -/
def wireIpc (ipc : Option Int) (s : WireState) :
    Except WireState (Option Nat × WireState) :=
  match ipc with
  | none => .ok (none, s)
  | some fd =>
    if 0 ≤ fd then
      match allocPipe s with
      | .error sE => .error sE
      | .ok (pair, s₁) =>
        let s₂ := { s₁ with fds_to_dup := s₁.fds_to_dup ++ [(pair.2, fd)],
                            fds_to_close := s₁.fds_to_close ++ [pair.2] }
        if s₂.ipcResOk then
          .ok (some s₂.nextRid,
            { s₂ with nextRid := s₂.nextRid + 1,
                      tableRids := s₂.tableRids ++ [s₂.nextRid] })
        else .error s₂
    else .ok (none, s)

/-- The auxiliary-pipe loop of `create_command` on Unix: entry `i` of
`extra_stdio` targets child fd `i + 3`; only `Piped` allocates a pipe pair,
whose child end is recorded for duplication and closing and whose parent
end becomes a `BiPipeResource` (yielding `none` with a warning when
`from_raw_handle` fails); every other mode contributes `none`. -/
def wireExtraStdio (extra : List Stdio) (i : Nat) (s : WireState) :
    Except WireState (List (Option Nat) × WireState) :=
  match extra with
  | [] => .ok ([], s)
  | stdio :: rest =>
    match stdio with
    | .piped =>
      match allocPipe s with
      | .error sE => .error sE
      | .ok (pair, s₁) =>
        let s₂ := { s₁ with
          fds_to_dup := s₁.fds_to_dup ++ [(pair.2, ((i + 3 : Nat) : Int))],
          fds_to_close := s₁.fds_to_close ++ [pair.2] }
        let orest := takeBiPipeOk s₂.biPipeOk
        if orest.1 then
          match wireExtraStdio rest (i + 1)
              { s₂ with biPipeOk := orest.2, nextRid := s₂.nextRid + 1,
                        tableRids := s₂.tableRids ++ [s₂.nextRid] } with
          | .error sE => .error sE
          | .ok (rids, sF) => .ok (some s₂.nextRid :: rids, sF)
        else
          match wireExtraStdio rest (i + 1) { s₂ with biPipeOk := orest.2 } with
          | .error sE => .error sE
          | .ok (rids, sF) => .ok (none :: rids, sF)
    | _ =>
      match wireExtraStdio rest (i + 1) s with
      | .error sE => .error sE
      | .ok (rids, sF) => .ok (none :: rids, sF)

/-- The Unix channel/pipe setup block of `create_command` (after stdio
resolution): ipc wiring then the `extra_stdio` loop.  Returns the
control-channel rid, the positional auxiliary rid list, and the final state
(whose `fds_to_dup` feeds the `pre_exec` dup2 loop and whose `fds_to_close`
is handed to `op_spawn_child`). -/
def create_command_wire (ipc : Option Int) (extra : List Stdio)
    (s : WireState) :
    Except WireState (Option Nat × List (Option Nat) × WireState) :=
  match wireIpc ipc s with
  | .error sE => .error sE
  | .ok (ipcRid, s₁) =>
    match wireExtraStdio extra 0 s₁ with
    | .error sE => .error sE
    | .ok (rids, s₂) => .ok (ipcRid, rids, s₂)

/-- `op_spawn_child` through fd accounting: when `create_command` succeeds,
every handle in `fds_to_close` is closed through `close_raw_handle`
(regardless of the spawn outcome); when it fails, the error propagates and
no close happens. -/
def op_spawn_child_fds (ipc : Option Int) (extra : List Stdio)
    (s : WireState) : WireState × Bool :=
  match create_command_wire ipc extra s with
  | .error sE => (sE, false)
  | .ok (_, _, sF) =>
    ({ sF with osOpen := sF.osOpen.filter (fun fd => !sF.fds_to_close.contains fd) },
      true)

/-- Number of pipe allocations the auxiliary loop will perform. -/
def countPiped (extra : List Stdio) : Nat :=
  (extra.filter (fun st => st == .piped)).length

/-- Behaviour of the auxiliary-pipe loop when every allocation succeeds:
the returned positional list matches `extra_stdio` index by index (an open
resource exactly at `Piped` indices), each `Piped` index `j` is wired for
duplication onto child fd `i + j + 3`, and previously recorded duplication
pairs are preserved. -/
theorem wireExtraStdio_ok (extra : List Stdio) :
    ∀ (i : Nat) (s : WireState),
    (∀ p ∈ s.pipePairs, p.isSome = true) →
    countPiped extra ≤ s.pipePairs.length →
    (∀ b ∈ s.biPipeOk, b = true) →
    ∃ rids sF, wireExtraStdio extra i s = .ok (rids, sF) ∧
      rids.length = extra.length ∧
      (∀ j st, extra.get? j = some st →
        ∃ r, rids.get? j = some r ∧ r.isSome = (st == Stdio.piped)) ∧
      (∀ j, extra.get? j = some Stdio.piped →
        ∃ src, (src, ((i + j + 3 : Nat) : Int)) ∈ sF.fds_to_dup) ∧
      (∀ pr ∈ s.fds_to_dup, pr ∈ sF.fds_to_dup) := by
  induction extra with
  | nil =>
    intro i s hps hlen hbi
    exact ⟨[], s, rfl, rfl, by simp, by simp, fun pr h => h⟩
  | cons stdio rest ih =>
    intro i s hps hlen hbi
    cases stdio with
    | piped =>
      obtain ⟨nr, oo, fdup, fcl, tr, pp, bo, ipcok⟩ := s
      cases pp with
      | nil =>
        exfalso
        simp [countPiped] at hlen
      | cons po pt =>
        cases po with
        | none =>
          exfalso
          have := hps none (by simp)
          simp at this
        | some pair =>
          obtain ⟨a, b⟩ := pair
          have hps' : ∀ p ∈ pt, p.isSome = true := by
            intro p hp
            exact hps p (by simp [hp])
          have hlen' : countPiped rest ≤ pt.length := by
            simp [countPiped] at hlen ⊢
            omega
          cases bo with
          | nil =>
            obtain ⟨rids, sF, heq, hl, hm, hd, hmono⟩ :=
              ih (i + 1)
                ⟨nr + 1, a :: b :: oo, fdup ++ [(b, ((i + 3 : Nat) : Int))],
                  fcl ++ [b], tr ++ [nr], pt, [], ipcok⟩
                hps' hlen' (by simp)
            refine ⟨some nr :: rids, sF, ?_, by simp [hl], ?_, ?_, ?_⟩
            · simp only [wireExtraStdio, allocPipe, takeBiPipeOk]
              rw [heq]
              simp
            · intro j st hj
              cases j with
              | zero =>
                simp only [List.get?_cons_zero, Option.some.injEq] at hj
                subst hj
                exact ⟨some nr, rfl, rfl⟩
              | succ j =>
                simp only [List.get?_cons_succ] at hj ⊢
                exact hm j st hj
            · intro j hj
              cases j with
              | zero =>
                refine ⟨b, hmono _ ?_⟩
                simp
              | succ j =>
                simp only [List.get?_cons_succ] at hj
                obtain ⟨src, hsrc⟩ := hd j hj
                refine ⟨src, ?_⟩
                have harith : i + 1 + j + 3 = i + (j + 1) + 3 := by omega
                rw [harith] at hsrc
                exact hsrc
            · intro pr hpr
              exact hmono pr (by simp [hpr])
          | cons bb bs =>
            have hb : bb = true := hbi bb (by simp)
            subst hb
            have hbi' : ∀ x ∈ bs, x = true := by
              intro x hx
              exact hbi x (by simp [hx])
            obtain ⟨rids, sF, heq, hl, hm, hd, hmono⟩ :=
              ih (i + 1)
                ⟨nr + 1, a :: b :: oo, fdup ++ [(b, ((i + 3 : Nat) : Int))],
                  fcl ++ [b], tr ++ [nr], pt, bs, ipcok⟩
                hps' hlen' hbi'
            refine ⟨some nr :: rids, sF, ?_, by simp [hl], ?_, ?_, ?_⟩
            · simp only [wireExtraStdio, allocPipe, takeBiPipeOk]
              rw [heq]
              simp
            · intro j st hj
              cases j with
              | zero =>
                simp only [List.get?_cons_zero, Option.some.injEq] at hj
                subst hj
                exact ⟨some nr, rfl, rfl⟩
              | succ j =>
                simp only [List.get?_cons_succ] at hj ⊢
                exact hm j st hj
            · intro j hj
              cases j with
              | zero =>
                refine ⟨b, hmono _ ?_⟩
                simp
              | succ j =>
                simp only [List.get?_cons_succ] at hj
                obtain ⟨src, hsrc⟩ := hd j hj
                refine ⟨src, ?_⟩
                have harith : i + 1 + j + 3 = i + (j + 1) + 3 := by omega
                rw [harith] at hsrc
                exact hsrc
            · intro pr hpr
              exact hmono pr (by simp [hpr])
    | inherit =>
      have hlen' : countPiped rest ≤ s.pipePairs.length := by
        simpa [countPiped] using hlen
      obtain ⟨rids, sF, heq, hl, hm, hd, hmono⟩ := ih (i + 1) s hps hlen' hbi
      refine ⟨none :: rids, sF, ?_, by simp [hl], ?_, ?_, hmono⟩
      · simp only [wireExtraStdio]
        rw [heq]
      · intro j st hj
        cases j with
        | zero =>
          simp only [List.get?_cons_zero, Option.some.injEq] at hj
          subst hj
          exact ⟨none, rfl, rfl⟩
        | succ j =>
          simp only [List.get?_cons_succ] at hj ⊢
          exact hm j st hj
      · intro j hj
        cases j with
        | zero => simp at hj
        | succ j =>
          simp only [List.get?_cons_succ] at hj
          obtain ⟨src, hsrc⟩ := hd j hj
          refine ⟨src, ?_⟩
          have harith : i + 1 + j + 3 = i + (j + 1) + 3 := by omega
          rw [harith] at hsrc
          exact hsrc
    | null =>
      have hlen' : countPiped rest ≤ s.pipePairs.length := by
        simpa [countPiped] using hlen
      obtain ⟨rids, sF, heq, hl, hm, hd, hmono⟩ := ih (i + 1) s hps hlen' hbi
      refine ⟨none :: rids, sF, ?_, by simp [hl], ?_, ?_, hmono⟩
      · simp only [wireExtraStdio]
        rw [heq]
      · intro j st hj
        cases j with
        | zero =>
          simp only [List.get?_cons_zero, Option.some.injEq] at hj
          subst hj
          exact ⟨none, rfl, rfl⟩
        | succ j =>
          simp only [List.get?_cons_succ] at hj ⊢
          exact hm j st hj
      · intro j hj
        cases j with
        | zero => simp at hj
        | succ j =>
          simp only [List.get?_cons_succ] at hj
          obtain ⟨src, hsrc⟩ := hd j hj
          refine ⟨src, ?_⟩
          have harith : i + 1 + j + 3 = i + (j + 1) + 3 := by omega
          rw [harith] at hsrc
          exact hsrc
    | ipcForInternalUse =>
      have hlen' : countPiped rest ≤ s.pipePairs.length := by
        simpa [countPiped] using hlen
      obtain ⟨rids, sF, heq, hl, hm, hd, hmono⟩ := ih (i + 1) s hps hlen' hbi
      refine ⟨none :: rids, sF, ?_, by simp [hl], ?_, ?_, hmono⟩
      · simp only [wireExtraStdio]
        rw [heq]
      · intro j st hj
        cases j with
        | zero =>
          simp only [List.get?_cons_zero, Option.some.injEq] at hj
          subst hj
          exact ⟨none, rfl, rfl⟩
        | succ j =>
          simp only [List.get?_cons_succ] at hj ⊢
          exact hm j st hj
      · intro j hj
        cases j with
        | zero => simp at hj
        | succ j =>
          simp only [List.get?_cons_succ] at hj
          obtain ⟨src, hsrc⟩ := hd j hj
          refine ⟨src, ?_⟩
          have harith : i + 1 + j + 3 = i + (j + 1) + 3 := by omega
          rw [harith] at hsrc
          exact hsrc

/-- Pipe allocations the control-channel wiring will perform. -/
def ipcNeeds : Option Int → Nat
  | none => 0
  | some fd => if 0 ≤ fd then 1 else 0

/-- When its allocation succeeds, the control-channel wiring returns
successfully, consuming exactly `ipcNeeds` pipe pairs and leaving the
`from_raw_handle` oracle untouched. -/
theorem wireIpc_ok (ipc : Option Int) (s : WireState)
    (hps : ∀ p ∈ s.pipePairs, p.isSome = true)
    (hlen : ipcNeeds ipc ≤ s.pipePairs.length)
    (hok : s.ipcResOk = true) :
    ∃ r s₁, wireIpc ipc s = .ok (r, s₁) ∧
      (∀ p ∈ s₁.pipePairs, p.isSome = true) ∧
      s.pipePairs.length = s₁.pipePairs.length + ipcNeeds ipc ∧
      s₁.biPipeOk = s.biPipeOk := by
  cases ipc with
  | none => exact ⟨none, s, rfl, hps, by simp [ipcNeeds], rfl⟩
  | some fd =>
    by_cases hfd : 0 ≤ fd
    · obtain ⟨nr, oo, fdup, fcl, tr, pp, bo, ipcok⟩ := s
      have hok2 : ipcok = true := hok
      subst hok2
      cases pp with
      | nil =>
        exfalso
        simp [ipcNeeds, hfd] at hlen
      | cons po pt =>
        cases po with
        | none =>
          exfalso
          have := hps none (by simp)
          simp at this
        | some pair =>
          obtain ⟨a, b⟩ := pair
          refine ⟨some nr, ⟨nr + 1, a :: b :: oo, fdup ++ [(b, fd)],
            fcl ++ [b], tr ++ [nr], pt, bo, true⟩, ?_, ?_, ?_, rfl⟩
          · simp [wireIpc, allocPipe, hfd]
          · intro p hp
            exact hps p (by simp [hp])
          · simp [ipcNeeds, hfd]
    · have h0 : ipcNeeds (some fd) = 0 := by simp [ipcNeeds, hfd]
      refine ⟨none, s, ?_, hps, by simp [h0], rfl⟩
      simp [wireIpc, hfd]

/-- C6: on Unix, when every allocation succeeds, the auxiliary stdio mode at
index `j` of `extra_stdio` is wired — through the pre-exec duplication
list — onto child fd `j + 3`, and the returned positional rid list has an
open resource exactly at the indices whose mode is `Piped`; every non-Piped
auxiliary mode yields `none` at its index. -/
theorem extra_stdio_wiring (ipc : Option Int) (extra : List Stdio)
    (s : WireState)
    (hps : ∀ p ∈ s.pipePairs, p.isSome = true)
    (hlen : ipcNeeds ipc + countPiped extra ≤ s.pipePairs.length)
    (hbi : ∀ b ∈ s.biPipeOk, b = true)
    (hok : s.ipcResOk = true) :
    ∃ ipcRid rids sF,
      create_command_wire ipc extra s = .ok (ipcRid, rids, sF) ∧
      rids.length = extra.length ∧
      (∀ j st, extra.get? j = some st →
        ∃ r, rids.get? j = some r ∧ r.isSome = (st == Stdio.piped)) ∧
      (∀ j, extra.get? j = some Stdio.piped →
        ∃ src, (src, ((j + 3 : Nat) : Int)) ∈ sF.fds_to_dup) := by
  obtain ⟨r, s₁, heq1, hps1, hlen1, hbi1⟩ := wireIpc_ok ipc s hps (by omega) hok
  obtain ⟨rids, sF, heq2, hl, hm, hd, hmono⟩ :=
    wireExtraStdio_ok extra 0 s₁ hps1 (by omega) (by rw [hbi1]; exact hbi)
  refine ⟨r, rids, sF, ?_, hl, hm, ?_⟩
  · simp only [create_command_wire, heq1, heq2]
  · intro j hj
    obtain ⟨src, hsrc⟩ := hd j hj
    refine ⟨src, ?_⟩
    have harith : 0 + j + 3 = j + 3 := by omega
    rw [harith] at hsrc
    exact hsrc

/-- Initial state for the C6 witness: a fresh resource table and one
available pipe pair (fds 10 and 11). -/
def wireDemoState : WireState :=
  ⟨0, [], [], [], [], [some (10, 11)], [], true⟩

/-- Witness for C6 at a concrete request with `extraStdio = [piped, null]`:
index 0 is wired onto child fd 3 with an open resource, index 1 yields
`none`. -/
theorem extra_stdio_wiring_witness :
    ∃ ipcRid rids sF,
      create_command_wire none [Stdio.piped, Stdio.null] wireDemoState =
        .ok (ipcRid, rids, sF) ∧
      rids.length = [Stdio.piped, Stdio.null].length ∧
      (∀ j st, [Stdio.piped, Stdio.null].get? j = some st →
        ∃ r, rids.get? j = some r ∧ r.isSome = (st == Stdio.piped)) ∧
      (∀ j, [Stdio.piped, Stdio.null].get? j = some Stdio.piped →
        ∃ src, (src, ((j + 3 : Nat) : Int)) ∈ sF.fds_to_dup) :=
  extra_stdio_wiring none [Stdio.piped, Stdio.null] wireDemoState
    (by decide) (by decide) (by decide) rfl

/-- C1 (amended): closing of the accumulated child-side handles happens in
`op_spawn_child` exactly when `create_command` has returned successfully —
after a successful wire-up no fd recorded in `fds_to_close` remains open. -/
theorem fds_closed_after_successful_setup (ipc : Option Int)
    (extra : List Stdio) (s : WireState) (ipcRid : Option Nat)
    (rids : List (Option Nat)) (sF : WireState)
    (h : create_command_wire ipc extra s = .ok (ipcRid, rids, sF)) :
    (op_spawn_child_fds ipc extra s).2 = true ∧
    ∀ fd ∈ (op_spawn_child_fds ipc extra s).1.osOpen,
      fd ∉ sF.fds_to_close := by
  have hrun : op_spawn_child_fds ipc extra s =
      ({ sF with
        osOpen := sF.osOpen.filter (fun fd => !sF.fds_to_close.contains fd) },
        true) := by
    simp only [op_spawn_child_fds, h]
  rw [hrun]
  refine ⟨rfl, ?_⟩
  intro fd hfd hmem
  simp only [List.mem_filter] at hfd
  have hnc := hfd.2
  simp at hnc
  exact hnc hmem

/-- Initial state for the C1 witness: two available pipe pairs. -/
def demoSuccessState : WireState :=
  ⟨0, [], [], [], [], [some (4, 5), some (6, 7)], [], true⟩

/-- Final state of the successful wire-up used for the C1 witness. -/
def demoSuccessFinal : WireState :=
  ⟨2, [6, 7, 4, 5], [(5, 0), (7, 3)], [5, 7], [0, 1], [], [], true⟩

/-- Witness for the amended C1: after a successful setup (control channel on
slot 0 plus one piped auxiliary entry), `op_spawn_child` reports success and
the child end fd 5 recorded in `fds_to_close` is no longer open. -/
theorem fds_closed_after_successful_setup_witness :
    (op_spawn_child_fds (some 0) [Stdio.piped] demoSuccessState).2 = true ∧
    (5 : Int) ∉ (op_spawn_child_fds (some 0) [Stdio.piped]
      demoSuccessState).1.osOpen :=
  ⟨(fds_closed_after_successful_setup (some 0) [Stdio.piped] demoSuccessState
      (some 0) [some 1] demoSuccessFinal rfl).1,
    fun hmem =>
      (fds_closed_after_successful_setup (some 0) [Stdio.piped]
        demoSuccessState (some 0) [some 1] demoSuccessFinal rfl).2 5 hmem
        (by decide)⟩

/-- State for the C1 counterexample: the first pipe allocation (for the
control channel) succeeds returning fds 4 and 5, the second one (for the
auxiliary pipe) fails. -/
def leakState : WireState :=
  ⟨0, [], [], [], [], [some (4, 5), none], [], true⟩

/-- C1 as stated is violated: with a control channel on slot 0 and one piped
auxiliary entry, the failing second allocation makes the setup propagate
the error while fds 4 and 5, opened by this very setup, are still open — in
particular the child end 5 already recorded in `fds_to_close` is not closed
before the error reaches the caller, and the failing `op_spawn_child`
closes nothing. -/
theorem pipe_setup_failure_leaks_fds :
    ∃ sE, create_command_wire (some 0) [Stdio.piped] leakState = .error sE ∧
      sE.osOpen = [4, 5] ∧ sE.fds_to_close = [5] ∧
      op_spawn_child_fds (some 0) [Stdio.piped] leakState = (sE, false) :=
  ⟨⟨1, [4, 5], [(5, 0)], [5], [0], [], [], true⟩, rfl, rfl, rfl, rfl⟩

end DenoProcess
